import Mathlib

/-!
Verification of the jx pull-request tooling against its specification.

The Go sources embedded here:
* `pkg/cmd/step/pr/step_pr_labels.go` — pull-request label extraction
  (`StepPRLabelsOptions.Run`).
* `pkg/cmd/step/create/pr/step_create_pr_regex.go` — regex PR step validation
  (`StepCreatePullRequestRegexOptions.ValidateRegexOptions`).
* `pkg/jx/cmd/add_app.go` and the companion file holding
  `AddAppOptions.handleSecrets`, `AddAppOptions.initVault` and
  `CommonOptions.GetDevEnv` — app installation and secret materialization.

Go strings are modelled as Lean `String` (a list of unicode scalar values,
matching Go's rune sequences for the ASCII-only data handled here).  External
collaborators (git provider, vault client, filesystem, kubernetes clients) are
modelled as oracles: records of `Except`-valued results describing the outcome
of each call the code makes, while the code's own control flow and the effects
it requests (store writes, file writes) are computed explicitly.
-/

/-- Errors produced by the embedded command code.  `missingOption` embeds
`util.MissingOption`, `invalidOption` embeds `util.InvalidOptionf`, and
`generic` embeds errors built with `fmt.Errorf` / `errors.Wrapf` or forwarded
from collaborators. -/
inductive JxError where
  | missingOption (name : String)
  | invalidOption (name : String)
  | generic (msg : String)
  deriving Repr, DecidableEq

/-- Embeds Go `strings.HasPrefix(s, pre)`. -/
def goHasPre (s pre : String) : Bool :=
  s.toList.take pre.toList.length = pre.toList

/-- Embeds Go `strings.TrimPrefix(s, pre)`: if `pre` is a prefix of `s` the
prefix is removed, otherwise `s` is returned unchanged. -/
def goTrimPre (s pre : String) : String :=
  if goHasPre s pre then
    String.mk (s.toList.drop pre.toList.length)
  else s

/-- Embeds Go `strconv.Atoi`: an optional sign followed by one or more ASCII
digits; anything else is an error (`none`).  (Go additionally range-checks
against the machine int; the identifiers handled by the claims are far below
that bound, so the range error case is not modelled.) -/
def goAtoi (s : String) : Option Int :=
  let (sign, digits) :=
    if s.toList.take 1 = ['-'] then ((-1 : Int), s.toList.drop 1)
    else if s.toList.take 1 = ['+'] then ((1 : Int), s.toList.drop 1)
    else ((1 : Int), s.toList)
  if digits = [] then none
  else if digits.all (fun c => 48 ≤ c.toNat ∧ c.toNat ≤ 57) then
    some (sign * (digits.foldl (fun a c => 10 * a + ((c.toNat : Int) - 48)) 0))
  else none

/-- Constant `DefaultPrefix` from `step_pr_labels.go`: the default environment
key marker for all PR labels. -/
def DefaultPrefix : String := "JX_PR_LABELS"

/-- Embeds the resolution of the pull-request identifier in
`StepPRLabelsOptions.Run` (lines 99–105): the `--pr` flag value takes
precedence; when it is empty the value is derived from the `BRANCH_NAME`
environment variable by `strings.TrimPrefix(..., "PR-")`; if the result is
still empty the run fails with `util.MissingOption("pr")`.  `flagPr` is the
`--pr` flag value and `branchEnv` the value of `BRANCH_NAME` (the empty string
when the variable is unset, as with `os.Getenv`). -/
def resolvePullRequestId (flagPr branchEnv : String) : Except JxError String :=
  let pr := if flagPr = "" then goTrimPre branchEnv "PR-" else flagPr
  if pr = "" then .error (.missingOption "pr") else .ok pr

/-- Embeds lines 111–114 of `StepPRLabelsOptions.Run`: `strconv.Atoi` is
applied to the resolved identifier; on failure only a warning is logged and
`prNum` keeps its Go zero value `0`.  The returned integer is what is passed
to `provider.GetPullRequest` (whose `number` parameter is an `int`). -/
def prNumForLookup (prId : String) : Int :=
  match goAtoi prId with
  | some n => n
  | none => 0

/-- True exactly when the `Atoi` parse failed, i.e. when the code logs the
warning `Unable to convert PR ... to a number` (and nothing else happens). -/
def atoiWarns (prId : String) : Bool :=
  (goAtoi prId).isNone

/-- The fields of `StepCreatePullRequestRegexOptions` read and written by
`ValidateRegexOptions`. -/
structure RegexOptions where
  Regexp : String
  SrcGitURL : String
  Kind : String
  deriving Repr, DecidableEq

/-- Embeds `StepCreatePullRequestRegexOptions.ValidateRegexOptions`.
`base` is the outcome of the call `o.ValidateOptions(false)` (defined outside
the shown sources).  On success the (possibly rewritten) options are returned:
an empty pattern is `MissingOption("regex")`; a pattern not starting with the
multi-line marker `"(?m"` is rewritten to `"(?m)" ++ pattern`
(`fmt.Sprintf("(?m)%s", o.Regexp)`); an empty `Kind` defaults to `"regex"`.
The missing `SrcGitURL` case only logs a warning and changes nothing. -/
def validateRegexOptions (base : Except JxError Unit) (o : RegexOptions) :
    Except JxError RegexOptions :=
  match base with
  | .error e => .error e
  | .ok () =>
    if o.Regexp = "" then .error (.missingOption "regex")
    else
      let rex := if goHasPre o.Regexp "(?m" then o.Regexp
                 else "(?m)" ++ o.Regexp
      let kind := if o.Kind = "" then "regex" else o.Kind
      .ok { o with Regexp := rex, Kind := kind }

/-! Helper lemmas about the string model. -/

theorem string_mk_toList (s : String) : String.mk s.toList = s := rfl

theorem string_toList_append (s t : String) :
    (s ++ t).toList = s.toList ++ t.toList := by
  cases s; cases t; rfl

/-- Trimming the literal marker from a string that carries it. -/
theorem goTrimPre_pr_append (n : String) :
    goTrimPre ("PR-" ++ n) "PR-" = n := by
  unfold goTrimPre goHasPre
  rw [string_toList_append]
  simp [String.toList]

/-- C3: the explicit `--pr` flag value takes precedence; when it is absent the
identifier is derived from `BRANCH_NAME` by stripping a `PR-` marker; when
both are absent or empty the run fails with `MissingOption("pr")`. -/
theorem resolvePullRequestId_spec :
    (∀ flagPr branchEnv, flagPr ≠ "" →
      resolvePullRequestId flagPr branchEnv = .ok flagPr) ∧
    (∀ n, n ≠ "" →
      resolvePullRequestId "" ("PR-" ++ n) = .ok n) ∧
    (resolvePullRequestId "" "" = .error (.missingOption "pr")) := by
  refine ⟨fun flagPr branchEnv h => ?_, fun n h => ?_, rfl⟩
  · simp only [resolvePullRequestId]
    simp [h]
  · simp [resolvePullRequestId, goTrimPre_pr_append, h]

/-- Witness for C3 at concrete inputs. -/
theorem resolvePullRequestId_spec_witness :
    resolvePullRequestId "34" "PR-77" = .ok "34" ∧
    resolvePullRequestId "" ("PR-" ++ "34") = .ok "34" := by
  refine ⟨resolvePullRequestId_spec.1 "34" "PR-77" (by decide),
          resolvePullRequestId_spec.2.1 "34" (by decide)⟩

/-- C1: the command's own example block documents `--pr PR-34` alongside
`--pr 34`, but with the flag set to `PR-34` the `PR-` marker is never
stripped (stripping only applies to `BRANCH_NAME`), `strconv.Atoi` fails, the
code merely logs a warning, and `provider.GetPullRequest` — whose parameter is
an `int`, so the original string is never passed through — receives the zero
value `0` instead of `34`.  The flag value `34` does resolve to `34`. -/
theorem prLabels_pr_marker_lookup_bug :
    resolvePullRequestId "PR-34" "" = .ok "PR-34" ∧
    atoiWarns "PR-34" = true ∧
    prNumForLookup "PR-34" = 0 ∧
    prNumForLookup "PR-34" ≠ 34 ∧
    resolvePullRequestId "34" "" = .ok "34" ∧
    prNumForLookup "34" = 34 := by
  refine ⟨rfl, by decide, by decide, by decide, rfl, by decide⟩

/-- C7: during validation of the regex PR options a supplied pattern that does
not already start with the marker `"(?m"` is rewritten to `"(?m)"` followed by
the original pattern, and a pattern already carrying the marker is left
unchanged. -/
theorem validateRegexOptions_multiline (o : RegexOptions)
    (hne : o.Regexp ≠ "") :
    (goHasPre o.Regexp "(?m" = false →
      ∃ o', validateRegexOptions (.ok ()) o = .ok o' ∧
        o'.Regexp = "(?m)" ++ o.Regexp) ∧
    (goHasPre o.Regexp "(?m" = true →
      ∃ o', validateRegexOptions (.ok ()) o = .ok o' ∧
        o'.Regexp = o.Regexp) := by
  constructor
  · intro hpre
    refine ⟨⟨"(?m)" ++ o.Regexp, o.SrcGitURL,
        if o.Kind = "" then "regex" else o.Kind⟩, ?_, rfl⟩
    simp [validateRegexOptions, hne, hpre]
  · intro hpre
    refine ⟨⟨o.Regexp, o.SrcGitURL,
        if o.Kind = "" then "regex" else o.Kind⟩, ?_, rfl⟩
    simp [validateRegexOptions, hne, hpre]

/-- Witness for C7 at concrete inputs. -/
theorem validateRegexOptions_multiline_witness :
    (∃ o', validateRegexOptions (.ok ())
        ⟨"release = (.*)", "", ""⟩ = .ok o' ∧
        o'.Regexp = "(?m)" ++ "release = (.*)") ∧
    (∃ o', validateRegexOptions (.ok ())
        ⟨"(?m)^x$", "", ""⟩ = .ok o' ∧
        o'.Regexp = "(?m)^x$") :=
  ⟨(validateRegexOptions_multiline ⟨"release = (.*)", "", ""⟩
      (by decide)).1 (by decide),
   (validateRegexOptions_multiline ⟨"(?m)^x$", "", ""⟩
      (by decide)).2 (by decide)⟩

/-! Label-name normalization, embedding the loop at lines 128–137 of
`StepPRLabelsOptions.Run`: `envKey := reg.ReplaceAllString(*v.Name, "_")` for
the compiled regex `"[^a-zA-Z0-9]+"`, followed by `strings.ToUpper(envKey)`. -/

/-- True exactly when `c` is in the regex character class `[a-zA-Z0-9]`
(codepoints 97–122 for `a`–`z`, 65–90 for `A`–`Z`, 48–57 for `0`–`9`), i.e.
when `c` is NOT matched by the pattern `[^a-zA-Z0-9]+`. -/
def isAlnumGo (c : Char) : Bool :=
  (97 ≤ c.toNat && c.toNat ≤ 122) || (65 ≤ c.toNat && c.toNat ≤ 90) ||
    (48 ≤ c.toNat && c.toNat ≤ 57)

/-- Embeds `reg.ReplaceAllString(s, "_")` for `reg = "[^a-zA-Z0-9]+"`: every
maximal run of characters outside `[a-zA-Z0-9]` is replaced by a single `'_'`.
A character of such a run is dropped unless it closes the run (the next
character is in the class, or the string ends), in which case the whole run
becomes one `'_'`. -/
def collapse : List Char → List Char
  | [] => []
  | [c] => if isAlnumGo c then [c] else ['_']
  | c :: d :: rest =>
    if isAlnumGo c then c :: collapse (d :: rest)
    else if isAlnumGo d then '_' :: collapse (d :: rest)
    else collapse (d :: rest)

/-- Embeds `strings.ToUpper` on one character.  Go's `ToUpper` applies the
full unicode case mapping; the code only ever upper-cases the output of the
replacement step, whose characters are `'_'` or ASCII `[a-zA-Z0-9]`, and on
that range the unicode mapping coincides with this ASCII mapping
(lower-case letters, codepoints 97–122, map 32 positions down). -/
def goToUpper (c : Char) : Char :=
  if 97 ≤ c.toNat && c.toNat ≤ 122 then Char.ofNat (c.toNat - 32) else c

/-- The replacement step `reg.ReplaceAllString(s, "_")` as a `String` map. -/
def replaceNonAlnum (s : String) : String :=
  String.mk (collapse s.toList)

/-- The upper-casing step `strings.ToUpper(s)` as a `String` map. -/
def goToUpperStr (s : String) : String :=
  String.mk (s.toList.map goToUpper)

/-- The normalized environment key printed for a label name: the replacement
step followed by the upper-casing step, exactly as in the source's
`strings.ToUpper(reg.ReplaceAllString(*v.Name, "_"))`. -/
def normalizeLabel (s : String) : String :=
  goToUpperStr (replaceNonAlnum s)

/-! Invariant of the collapsed form: every character is `'_'` or alphanumeric
and every `'_'` is followed by an alphanumeric character (or ends the
string). -/

/-- True when the list is empty or starts with an alphanumeric character. -/
def headAlnum : List Char → Bool
  | [] => true
  | d :: _ => isAlnumGo d

/-- The run-collapsed shape described above. -/
def good : List Char → Bool
  | [] => true
  | c :: cs => (isAlnumGo c || (c == '_' && headAlnum cs)) && good cs

theorem char_toNat_ofNat {n : Nat} (h : n < 55296) :
    (Char.ofNat n).toNat = n := by
  rw [Char.ofNat, dif_pos (Or.inl h)]
  rfl

theorem goToUpper_toNat_of_lower {c : Char} (h1 : 97 ≤ c.toNat)
    (h2 : c.toNat ≤ 122) : (goToUpper c).toNat = c.toNat - 32 := by
  unfold goToUpper
  rw [if_pos (by simp [h1, h2])]
  exact char_toNat_ofNat (by omega)

theorem goToUpper_eq_of_not_lower {c : Char}
    (h : ¬(97 ≤ c.toNat ∧ c.toNat ≤ 122)) : goToUpper c = c := by
  unfold goToUpper
  rw [if_neg (by simp; omega)]

theorem isAlnumGo_goToUpper {c : Char} (h : isAlnumGo c = true) :
    isAlnumGo (goToUpper c) = true := by
  simp only [isAlnumGo, Bool.or_eq_true, Bool.and_eq_true, decide_eq_true_eq] at h
  rcases h with (h | h) | h
  · have := goToUpper_toNat_of_lower h.1 h.2
    simp only [isAlnumGo, Bool.or_eq_true, Bool.and_eq_true, decide_eq_true_eq, this]
    omega
  · rw [goToUpper_eq_of_not_lower (by omega)]
    simp only [isAlnumGo, Bool.or_eq_true, Bool.and_eq_true, decide_eq_true_eq]
    omega
  · rw [goToUpper_eq_of_not_lower (by omega)]
    simp only [isAlnumGo, Bool.or_eq_true, Bool.and_eq_true, decide_eq_true_eq]
    omega

theorem goToUpper_goToUpper (c : Char) :
    goToUpper (goToUpper c) = goToUpper c := by
  by_cases hl : 97 ≤ c.toNat ∧ c.toNat ≤ 122
  · have := goToUpper_toNat_of_lower hl.1 hl.2
    exact goToUpper_eq_of_not_lower (by omega)
  · rw [goToUpper_eq_of_not_lower hl, goToUpper_eq_of_not_lower hl]

theorem collapse_head_alnum {d : Char} (ds : List Char)
    (h : isAlnumGo d = true) : headAlnum (collapse (d :: ds)) = true := by
  cases ds with
  | nil => simp [collapse, h, headAlnum]
  | cons e es => simp [collapse, h, headAlnum]

theorem good_collapse (l : List Char) : good (collapse l) = true := by
  induction l with
  | nil => rfl
  | cons c cs ih =>
    cases cs with
    | nil =>
      by_cases hc : isAlnumGo c = true
      · simp [collapse, hc, good, headAlnum]
      · simp only [collapse, if_neg hc]
        decide
    | cons d rest =>
      by_cases hc : isAlnumGo c = true
      · simp only [collapse, if_pos hc]
        simp [good, hc, ih]
      · by_cases hd : isAlnumGo d = true
        · simp only [collapse, if_neg hc, if_pos hd]
          simp [good, collapse_head_alnum rest hd, ih]
        · simp only [collapse, if_neg hc, if_neg hd]
          exact ih

theorem collapse_of_good (l : List Char) (h : good l = true) :
    collapse l = l := by
  induction l with
  | nil => rfl
  | cons c cs ih =>
    simp only [good, Bool.or_eq_true, Bool.and_eq_true, beq_iff_eq] at h
    obtain ⟨hc, hcs⟩ := h
    cases cs with
    | nil =>
      rcases hc with hc | ⟨hc, -⟩
      · simp [collapse, hc]
      · subst hc; rfl
    | cons d rest =>
      rcases hc with hc | ⟨hc, hd⟩
      · simp [collapse, hc, ih hcs]
      · subst hc
        simp only [headAlnum] at hd
        have hu : isAlnumGo '_' = true → False := by decide
        simp only [collapse, if_neg (fun hh => hu hh), if_pos hd]
        rw [ih hcs]

theorem good_map_goToUpper (l : List Char) (h : good l = true) :
    good (l.map goToUpper) = true := by
  induction l with
  | nil => rfl
  | cons c cs ih =>
    simp only [good, Bool.or_eq_true, Bool.and_eq_true, beq_iff_eq] at h
    obtain ⟨hc, hcs⟩ := h
    simp only [List.map_cons, good, Bool.and_eq_true, Bool.or_eq_true, beq_iff_eq]
    refine ⟨?_, ih hcs⟩
    rcases hc with hc | ⟨hc, hd⟩
    · exact Or.inl (isAlnumGo_goToUpper hc)
    · subst hc
      refine Or.inr ⟨by decide, ?_⟩
      cases cs with
      | nil => rfl
      | cons d rest =>
        simp only [headAlnum] at hd
        simp only [List.map_cons, headAlnum]
        exact isAlnumGo_goToUpper hd

theorem map_goToUpper_idem (l : List Char) :
    (l.map goToUpper).map goToUpper = l.map goToUpper := by
  rw [List.map_map]
  exact List.map_congr_left fun a _ => goToUpper_goToUpper a

/-- C5: label-name normalization (replacing every run of non-alphanumeric
characters with `_`, then upper-casing) is idempotent:
`normalize(normalize(x)) = normalize(x)` for every string `x`.  Totality and
determinism hold by construction: `normalizeLabel` is a total Lean
function. -/
theorem normalizeLabel_idempotent (s : String) :
    normalizeLabel (normalizeLabel s) = normalizeLabel s := by
  unfold normalizeLabel goToUpperStr replaceNonAlnum
  show String.mk ((collapse ((collapse s.toList).map goToUpper)).map goToUpper)
      = String.mk ((collapse s.toList).map goToUpper)
  have hy : good (collapse s.toList) = true := good_collapse _
  rw [collapse_of_good _ (good_map_goToUpper _ hy), map_goToUpper_idem]

/-! Label output, embedding lines 107–137 of `StepPRLabelsOptions.Run`.  A
pull-request label is represented by its display name (`*v.Name`); the bytes
the loop sends to standard output are collected into one string in loop
order. -/

/-- The string printed for one label by
`fmt.Printf("%v_%v='%v'", o.Prefix, strings.ToUpper(envKey), *v.Name)`. -/
def labelAssignment (pfx name : String) : String :=
  pfx ++ "_" ++ normalizeLabel name ++ "='" ++ name ++ "'"

/-- The loop `for _, v := range pr.Labels { fmt.Printf(...) }`: the bytes
written to standard output, concatenated in order. -/
def printLabels (pfx : String) : List String → String
  | [] => ""
  | name :: rest => labelAssignment pfx name ++ printLabels pfx rest

/-- The standard-output text of the label-extraction step for a fetched label
list, including the defaulting of the key marker at lines 107–109: an empty
`--prefix` value falls back to the constant `DefaultPrefix`. -/
def labelsOutput (flagPfx : String) (labels : List String) : String :=
  printLabels (if flagPfx = "" then DefaultPrefix else flagPfx) labels

/-- Modelled from the spec's words (claim C4, for comparison only): "for each
label, emit one line of the form `<PREFIX>_<NORMALIZED_NAME>='<original label
text>'`", i.e. the per-label strings separated onto distinct lines. -/
def specLabelsLines (pfx : String) (labels : List String) : String :=
  String.intercalate "\n" (labels.map (labelAssignment pfx))

/-- C4 is refuted: the `fmt.Printf` format string contains no newline, so the
emitted assignments are NOT one line per label; with labels `foo` and `bar`
the output is a single line with the two assignments run together, and it
contains no newline character at all. -/
theorem labelsOutput_one_line_counterexample :
    labelsOutput "" ["foo", "bar"] ≠ specLabelsLines DefaultPrefix ["foo", "bar"] ∧
    (labelsOutput "" ["foo", "bar"]).toList.all (fun c => c ≠ '\n') = true ∧
    labelsOutput "" ["foo", "bar"]
      = "JX_PR_LABELS_FOO='foo'JX_PR_LABELS_BAR='bar'" := by
  refine ⟨by decide, by decide, by decide⟩

/-- C4 (amended): for every label the extraction emits exactly the string
`<PREFIX>_<NORMALIZED_NAME>='<original label text>'` to standard output, with
no newline or separator between successive labels (so all assignments appear
on a single line); `PREFIX` is the constant `JX_PR_LABELS` when no `--prefix`
value is supplied and the supplied value otherwise. -/
theorem labelsOutput_concat_spec (flagPfx : String) (labels : List String) :
    (labelsOutput flagPfx labels).toList =
      (labels.map (fun name =>
        ((if flagPfx = "" then DefaultPrefix else flagPfx) ++ "_" ++
          normalizeLabel name ++ "='" ++ name ++ "'").toList)).flatten := by
  unfold labelsOutput
  induction labels with
  | nil => rfl
  | cons name rest ih =>
    simp only [printLabels, List.map_cons, List.flatten_cons, labelAssignment,
      string_toList_append]
    rw [ih]
    simp only [string_toList_append]

/-! App installation and secret materialization, embedding `add_app.go` and
the companion `cmd` file.  Collaborator calls (git URL parsing, kubernetes
clients, the vault client, the filesystem) are oracle fields holding each
call's outcome; the effects the code requests on success (store writes,
directory creation, file writes) are collected explicitly. -/

/-- A secret produced by schema-driven prompting
(`surveyutils.GeneratedSecret`): name, key and value. -/
structure GeneratedSecret where
  Name : String
  Key : String
  Value : String
  deriving Repr, DecidableEq

/-- The two fields of `gits.GitRepository` used by `initVault` after
`gits.ParseGitURL`. -/
structure GitInfo where
  Organisation : String
  Name : String
  deriving Repr, DecidableEq

/-- The `Spec.Source` of the development `Environment` CRD (only `URL` is
read by the embedded code). -/
structure EnvironmentSource where
  URL : String
  deriving Repr, DecidableEq

/-- The `Spec.TeamSettings` of the development `Environment` CRD (only
`AppsRepository` is read by the embedded code). -/
structure TeamSettings where
  AppsRepository : String
  deriving Repr, DecidableEq

/-- The `Spec` of the development `Environment` CRD, restricted to the fields
the embedded code reads. -/
structure EnvironmentSpec where
  Source : EnvironmentSource
  TeamSettings : TeamSettings
  deriving Repr, DecidableEq

/-- The development `Environment` CRD, restricted to the fields the embedded
code reads. -/
structure Environment where
  Spec : EnvironmentSpec
  deriving Repr, DecidableEq

/-- The empty `&jenkinsv1.Environment{}` value returned by `GetDevEnv` on
failure. -/
def emptyEnvironment : Environment := ⟨⟨⟨""⟩, ⟨""⟩⟩⟩

/-- The fields of `AddAppOptions` read by the embedded code.  `UseVault`
holds the (invocation-stable) result of the `o.UseVault()` method, which is
defined outside the shown sources and consulted both by `Run`'s GitOps guard
and by `handleSecrets`. -/
structure AddAppOptions where
  GitOps : Bool
  DevEnv : Environment
  ReleaseName : String
  HelmUpdate : Bool
  Namespace : String
  SetValues : List String
  ValuesFiles : List String
  Alias : String
  UseVault : Bool
  deriving Repr, DecidableEq

/-- Constant `appsGeneratedSecretKey` from `add_app.go`: the fixed key under
which generated secrets are embedded into the secrets values file. -/
def appsGeneratedSecretKey : String := "appsGeneratedSecrets"

/-- Constant `secretTemplate` from `add_app.go`: the template resource file
content written next to the chart on the inline-template path (the Go raw
string; template braces written as escapes). -/
def secretTemplate : String :=
  "\n\x7b\x7b- range .Values.generatedSecrets \x7d\x7d\napiVersion: v1\ndata:\n  \x7b\x7b .key \x7d\x7d: \x7b\x7b .value \x7d\x7d\nkind: Secret\nmetadata:\n  name: \x7b\x7b .name \x7d\x7d \ntype: Opaque\n\x7b\x7b- end \x7d\x7d\n"

/-- Oracle for the collaborators called by `handleSecrets`/`initVault`:
`parseGitURL` is `gits.ParseGitURL`, `teamName` the team returned by
`o.TeamAndEnvironmentNames()`, `createSystemVaultClient` the outcome of
`o.CreateSystemVaultClient("")` (the client handle itself is abstract),
`vaultWriteMap path key value` the outcome of `vault.WriteMap` for that
write, and the remaining fields the outcomes of `os.MkdirAll`,
`ioutil.WriteFile` (template file), `yaml.Marshal`, `ioutil.TempFile`
(returning the created file's name) and `secretsFile.Write`. -/
structure SecretsCollab where
  parseGitURL : String → Except JxError GitInfo
  teamName : Except JxError String
  createSystemVaultClient : Except JxError Unit
  vaultWriteMap : String → String → String → Except JxError Unit
  mkdirAll : Except JxError Unit
  writeTemplateFile : Except JxError Unit
  marshalSecrets : Except JxError Unit
  tempFile : Except JxError String
  writeTempFile : Except JxError Unit

/-- Embeds `AddAppOptions.initVault`: the vault base path is
`strings.Join(["gitOps", org, repo], "/")` for the parsed dev-environment
source URL when `o.GitOps`, else `strings.Join(["teams", team], "/")`; then
the system vault client is created.  Any collaborator error is returned. -/
def initVault (c : SecretsCollab) (o : AddAppOptions) : Except JxError String :=
  let basepath : Except JxError String :=
    if o.GitOps then
      match c.parseGitURL o.DevEnv.Spec.Source.URL with
      | .error e => .error e
      | .ok gitInfo =>
        .ok (String.intercalate "/" ["gitOps", gitInfo.Organisation, gitInfo.Name])
    else
      match c.teamName with
      | .error e => .error e
      | .ok teamName => .ok (String.intercalate "/" ["teams", teamName])
  match basepath with
  | .error e => .error e
  | .ok vaultBasepath =>
    match c.createSystemVaultClient with
    | .error e => .error e
    | .ok _ => .ok vaultBasepath

/-- The `for _, secret := range secrets` loop of the vault branch of
`handleSecrets`: each secret is written with `vault.WriteMap` at
`strings.Join([vaultBasepath, secret.Name], "/")` with content
`{secret.Key: secret.Value}`; the first failing write aborts the loop and is
returned.  The second component lists the writes performed (path, key,
value), in order. -/
def writeSecretsToVault (c : SecretsCollab) (vaultBasepath : String) :
    List GeneratedSecret → Except JxError Unit × List (String × String × String)
  | [] => (.ok (), [])
  | secret :: rest =>
    match c.vaultWriteMap (String.intercalate "/" [vaultBasepath, secret.Name])
        secret.Key secret.Value with
    | .error e => (.error e, [])
    | .ok _ =>
      ((writeSecretsToVault c vaultBasepath rest).1,
       (String.intercalate "/" [vaultBasepath, secret.Name], secret.Key, secret.Value)
         :: (writeSecretsToVault c vaultBasepath rest).2)

/-- The effects requested by one `handleSecrets` invocation: vault writes
(path, key, value), directories created, chart files written (path, content)
and temporary secrets values files created. -/
structure SecretsEffects where
  vaultWrites : List (String × String × String)
  dirsCreated : List String
  filesWritten : List (String × String)
  tempSecretsFiles : List String
  deriving Repr, DecidableEq

/-- No effects. -/
def noEffects : SecretsEffects := ⟨[], [], [], []⟩

/-- Embeds `AddAppOptions.handleSecrets`.  With a non-empty secret list:
when `o.UseVault()` holds, `initVault` is run and every secret is written to
the store; otherwise `templates/` is created under the chart directory
(`filepath.Join` embedded as `/`-concatenation), the fixed
`app-generated-secret-template.yaml` is written there, the secrets are
marshalled under `appsGeneratedSecretKey` into a temporary secrets values
file, and that file's name is appended to `o.ValuesFiles`.  Collaborator
errors are returned as-is.  The result is (error outcome, effects, updated
options); the returned cleanup closure of the Go code (which deletes the
temporary file) is not modelled. -/
def handleSecrets (c : SecretsCollab) (o : AddAppOptions) (dir app : String)
    (secrets : List GeneratedSecret) :
    Except JxError Unit × SecretsEffects × AddAppOptions :=
  if secrets.length > 0 then
    if o.UseVault then
      match initVault c o with
      | .error e => (.error e, noEffects, o)
      | .ok vaultBasepath =>
        ((writeSecretsToVault c vaultBasepath secrets).1,
         { noEffects with
             vaultWrites := (writeSecretsToVault c vaultBasepath secrets).2 },
         o)
    else
      let templatesDir := dir ++ "/templates"
      let fileName := templatesDir ++ "/app-generated-secret-template.yaml"
      match c.mkdirAll with
      | .error e => (.error e, noEffects, o)
      | .ok _ =>
        match c.writeTemplateFile with
        | .error e => (.error e, { noEffects with dirsCreated := [templatesDir] }, o)
        | .ok _ =>
          let effTemplate : SecretsEffects :=
            { noEffects with
                dirsCreated := [templatesDir],
                filesWritten := [(fileName, secretTemplate)] }
          match c.marshalSecrets with
          | .error e => (.error e, effTemplate, o)
          | .ok _ =>
            match c.tempFile with
            | .error e => (.error e, effTemplate, o)
            | .ok secretsFileName =>
              let effAll : SecretsEffects :=
                { effTemplate with tempSecretsFiles := [secretsFileName] }
              match c.writeTempFile with
              | .error e => (.error e, effAll, o)
              | .ok _ =>
                (.ok (), effAll,
                 { o with ValuesFiles := o.ValuesFiles ++ [secretsFileName] })
  else
    (.ok (), noEffects, o)

/-- Oracle for the two collaborator calls made by `CommonOptions.GetDevEnv`:
`o.JXClientAndDevNamespace()` (clients abstract) and
`kube.GetDevEnvironment(jxClient, ns)`. -/
structure DevEnvCollab where
  jxClientAndDevNamespace : Except JxError Unit
  getDevEnvironment : Except JxError Environment

/-- Embeds `CommonOptions.GetDevEnv`: the Go function has no error result;
on any collaborator failure it logs and returns `(false, &Environment{})`,
otherwise `gitOps` is set exactly when the development environment's
`Spec.Source.URL` is non-empty. -/
def GetDevEnv (c : DevEnvCollab) : Bool × Environment :=
  match c.jxClientAndDevNamespace with
  | .error _ => (false, emptyEnvironment)
  | .ok _ =>
    match c.getDevEnvironment with
    | .error _ => (false, emptyEnvironment)
    | .ok devEnv =>
      (if devEnv.Spec.Source.URL ≠ "" then true else false, devEnv)

/-- Constant `kube.DefaultNamespace` (defined in the `kube` package, outside
the shown sources; its concrete value does not enter any theorem below). -/
def DefaultNamespace : String := "jx"

/-- Embeds the option-validation guards of `AddAppOptions.Run` (lines
135–162 of `add_app.go`), executed after `GetDevEnv` and before any work on
the chart: in GitOps mode `--release`, `--helm-update=false`, a non-default
`--namespace`, `--set` values, more than one values file, and a missing
vault are all rejected; outside GitOps mode `--alias` is rejected. -/
def addAppGuards (o : AddAppOptions) : Except JxError Unit :=
  if o.GitOps then
    if o.ReleaseName ≠ "" then .error (.invalidOption "release")
    else if o.HelmUpdate = false then .error (.invalidOption "helm-update")
    else if o.Namespace ≠ "" ∧ o.Namespace ≠ DefaultNamespace then
      .error (.invalidOption "namespace")
    else if o.SetValues.length > 0 then .error (.invalidOption "set")
    else if o.ValuesFiles.length > 1 then .error (.invalidOption "values")
    else if o.UseVault = false then
      .error (.generic
        "cannot install apps without a vault when using GitOps for your dev environment")
    else .ok ()
  else
    if o.Alias ≠ "" then .error (.invalidOption "alias")
    else .ok ()

/-! Helper lemmas for the secret-materialization theorems. -/

theorem intercalate_pair (sep a b : String) :
    String.intercalate sep [a, b] = a ++ sep ++ b := rfl

theorem intercalate_triple (sep a b c : String) :
    String.intercalate sep [a, b, c] = a ++ sep ++ b ++ sep ++ c := rfl

/-- On overall success the vault loop writes exactly the expected
(path, key, value) triple for each secret, in order. -/
theorem writeSecretsToVault_ok (c : SecretsCollab) (bp : String)
    (secrets : List GeneratedSecret)
    (h : (writeSecretsToVault c bp secrets).1 = .ok ()) :
    (writeSecretsToVault c bp secrets).2 =
      secrets.map (fun s =>
        (String.intercalate "/" [bp, s.Name], s.Key, s.Value)) := by
  induction secrets with
  | nil => rfl
  | cons s rest ih =>
    unfold writeSecretsToVault at h ⊢
    cases hw : c.vaultWriteMap (String.intercalate "/" [bp, s.Name]) s.Key s.Value with
    | error e => rw [hw] at h; simp at h
    | ok _ =>
      rw [hw] at h
      simp only [List.map_cons]
      show (String.intercalate "/" [bp, s.Name], s.Key, s.Value)
          :: (writeSecretsToVault c bp rest).2 = _
      rw [ih h]

/-- In the vault branch the inline-template effects are always empty. -/
theorem handleSecrets_vault_no_template (c : SecretsCollab) (o : AddAppOptions)
    (dir app : String) (secrets : List GeneratedSecret)
    (hv : o.UseVault = true) :
    (handleSecrets c o dir app secrets).2.1.filesWritten = [] ∧
    (handleSecrets c o dir app secrets).2.1.tempSecretsFiles = [] ∧
    (handleSecrets c o dir app secrets).2.1.dirsCreated = [] := by
  unfold handleSecrets
  by_cases hlen : secrets.length > 0
  · rw [if_pos hlen, if_pos hv]
    cases initVault c o with
    | error e => exact ⟨rfl, rfl, rfl⟩
    | ok bp => exact ⟨rfl, rfl, rfl⟩
  · rw [if_neg hlen]
    exact ⟨rfl, rfl, rfl⟩

/-- C10: invoking `handleSecrets` with an empty `GeneratedSecret` list
returns success, performs no secret-store writes, creates no directories or
files, and leaves the options (in particular `ValuesFiles`) unchanged. -/
theorem handleSecrets_empty_noop (c : SecretsCollab) (o : AddAppOptions)
    (dir app : String) :
    handleSecrets c o dir app [] = (.ok (), noEffects, o) := rfl

/-- C2: for a non-empty secret list and a successful invocation, the vault
path performs exactly one store write per secret and creates no template or
values files, the inline-template path writes exactly one template file and
one embedded secrets values file and performs no store writes, and (always)
the two paths are mutually exclusive. -/
theorem handleSecrets_routing (c : SecretsCollab) (o : AddAppOptions)
    (dir app : String) (secrets : List GeneratedSecret)
    (hne : secrets ≠ [])
    (hok : (handleSecrets c o dir app secrets).1 = .ok ()) :
    (o.UseVault = true →
      (handleSecrets c o dir app secrets).2.1.vaultWrites.length = secrets.length ∧
      (handleSecrets c o dir app secrets).2.1.filesWritten = [] ∧
      (handleSecrets c o dir app secrets).2.1.tempSecretsFiles = []) ∧
    (o.UseVault = false →
      (handleSecrets c o dir app secrets).2.1.filesWritten.length = 1 ∧
      (handleSecrets c o dir app secrets).2.1.tempSecretsFiles.length = 1 ∧
      (handleSecrets c o dir app secrets).2.1.vaultWrites = []) ∧
    ((handleSecrets c o dir app secrets).2.1.vaultWrites = [] ∨
      (handleSecrets c o dir app secrets).2.1.filesWritten = []) := by
  have hlen : secrets.length > 0 := List.length_pos.mpr hne
  unfold handleSecrets at hok ⊢
  rw [if_pos hlen] at hok ⊢
  by_cases hv : o.UseVault = true
  · rw [if_pos hv] at hok ⊢
    cases hiv : initVault c o with
    | error e => rw [hiv] at hok; simp at hok
    | ok bp =>
      rw [hiv] at hok
      have hws := writeSecretsToVault_ok c bp secrets hok
      refine ⟨fun _ => ⟨?_, rfl, rfl⟩, fun hf => absurd hv (by simp [hf]), Or.inr rfl⟩
      show (writeSecretsToVault c bp secrets).2.length = secrets.length
      rw [hws, List.length_map]
  · rw [if_neg hv] at hok ⊢
    cases hm : c.mkdirAll with
    | error e => rw [hm] at hok; simp at hok
    | ok _ =>
      rw [hm] at hok
      cases hw : c.writeTemplateFile with
      | error e => rw [hw] at hok; simp at hok
      | ok _ =>
        rw [hw] at hok
        cases hmar : c.marshalSecrets with
        | error e => rw [hmar] at hok; simp at hok
        | ok _ =>
          rw [hmar] at hok
          cases htf : c.tempFile with
          | error e => rw [htf] at hok; simp at hok
          | ok nm =>
            rw [htf] at hok
            cases hwt : c.writeTempFile with
            | error e => rw [hwt] at hok; simp at hok
            | ok _ =>
              exact ⟨fun ht => absurd ht hv, fun _ => ⟨rfl, rfl, rfl⟩, Or.inl rfl⟩

/-- C6: on the vault path (successful invocation), each secret named `s` with
key `k` and value `v` is written with content `{k: v}` under
`gitOps/<org>/<repo>/<s>` when operating against a GitOps-managed dev
environment (org/repo parsed from the environment's source URL) and under
`teams/<team>/<s>` otherwise. -/
theorem handleSecrets_vault_paths (c : SecretsCollab) (o : AddAppOptions)
    (dir app : String) (secrets : List GeneratedSecret)
    (hv : o.UseVault = true)
    (hok : (handleSecrets c o dir app secrets).1 = .ok ())
    (hne : secrets ≠ []) :
    (∀ gi, o.GitOps = true →
      c.parseGitURL o.DevEnv.Spec.Source.URL = .ok gi →
      (handleSecrets c o dir app secrets).2.1.vaultWrites =
        secrets.map (fun s =>
          ("gitOps/" ++ gi.Organisation ++ "/" ++ gi.Name ++ "/" ++ s.Name,
           s.Key, s.Value))) ∧
    (∀ team, o.GitOps = false →
      c.teamName = .ok team →
      (handleSecrets c o dir app secrets).2.1.vaultWrites =
        secrets.map (fun s =>
          ("teams/" ++ team ++ "/" ++ s.Name, s.Key, s.Value))) := by
  have hlen : secrets.length > 0 := List.length_pos.mpr hne
  unfold handleSecrets at hok ⊢
  rw [if_pos hlen, if_pos hv] at hok ⊢
  cases hiv : initVault c o with
  | error e => rw [hiv] at hok; simp at hok
  | ok bp =>
    rw [hiv] at hok
    have hws := writeSecretsToVault_ok c bp secrets hok
    constructor
    · intro gi hg hp
      unfold initVault at hiv
      rw [if_pos hg, hp] at hiv
      cases hcv : c.createSystemVaultClient with
      | error e => rw [hcv] at hiv; simp at hiv
      | ok _ =>
        rw [hcv] at hiv
        have hiv' : String.intercalate "/" ["gitOps", gi.Organisation, gi.Name] = bp :=
          Except.ok.inj hiv
        subst hiv'
        show (writeSecretsToVault c _ secrets).2 = _
        rw [hws]
        apply List.map_congr_left
        intro s _
        rfl
    · intro team hg ht
      unfold initVault at hiv
      rw [if_neg (by simp [hg]), ht] at hiv
      cases hcv : c.createSystemVaultClient with
      | error e => rw [hcv] at hiv; simp at hiv
      | ok _ =>
        rw [hcv] at hiv
        have hiv' : String.intercalate "/" ["teams", team] = bp :=
          Except.ok.inj hiv
        subst hiv'
        show (writeSecretsToVault c _ secrets).2 = _
        rw [hws]
        apply List.map_congr_left
        intro s _
        rfl

/-- C8: `GetDevEnv` is error-free by type (it totally returns a pair): on
any collaborator failure it yields `(false, emptyEnvironment)`, and on
success it yields the loaded environment with `gitOps` true exactly when that
environment's `Spec.Source.URL` is non-empty. -/
theorem getDevEnv_total_spec (c : DevEnvCollab) :
    (∀ e, c.jxClientAndDevNamespace = .error e →
      GetDevEnv c = (false, emptyEnvironment)) ∧
    (∀ e, c.jxClientAndDevNamespace = .ok () →
      c.getDevEnvironment = .error e →
      GetDevEnv c = (false, emptyEnvironment)) ∧
    (∀ env, c.jxClientAndDevNamespace = .ok () →
      c.getDevEnvironment = .ok env →
      (GetDevEnv c).2 = env ∧
      ((GetDevEnv c).1 = true ↔ env.Spec.Source.URL ≠ "")) := by
  refine ⟨fun e he => ?_, fun e h1 h2 => ?_, fun env h1 h2 => ?_⟩
  · unfold GetDevEnv
    rw [he]
  · unfold GetDevEnv
    rw [h1, h2]
  · unfold GetDevEnv
    rw [h1, h2]
    refine ⟨rfl, ?_⟩
    by_cases hu : env.Spec.Source.URL ≠ ""
    · simp [hu]
    · simp [hu]

/-- Witness for C8 at concrete oracles. -/
theorem getDevEnv_total_spec_witness :
    GetDevEnv ⟨.error (.generic "no client"), .ok emptyEnvironment⟩
      = (false, emptyEnvironment) ∧
    GetDevEnv ⟨.ok (), .error (.generic "no dev env")⟩
      = (false, emptyEnvironment) ∧
    ((GetDevEnv ⟨.ok (), .ok ⟨⟨⟨"https://github.com/acme/env.git"⟩, ⟨""⟩⟩⟩⟩).2
        = ⟨⟨⟨"https://github.com/acme/env.git"⟩, ⟨""⟩⟩⟩ ∧
      ((GetDevEnv ⟨.ok (), .ok ⟨⟨⟨"https://github.com/acme/env.git"⟩, ⟨""⟩⟩⟩⟩).1 = true ↔
        (⟨⟨⟨"https://github.com/acme/env.git"⟩, ⟨""⟩⟩⟩ : Environment).Spec.Source.URL ≠ "")) :=
  ⟨(getDevEnv_total_spec _).1 (.generic "no client") rfl,
   (getDevEnv_total_spec _).2.1 (.generic "no dev env") rfl rfl,
   (getDevEnv_total_spec _).2.2 _ rfl rfl⟩

/-- C9: when `Run` operates in GitOps mode, passing the pre-mutation guard
block requires the external secret store (`UseVault`); consequently the
inline-template branch of `handleSecrets` (which writes
`app-generated-secret-template.yaml`) is unreachable: no chart file, no
temporary values file and no directory is ever created. -/
theorem gitopsGuards_require_vault (o : AddAppOptions)
    (hg : o.GitOps = true) (hok : addAppGuards o = .ok ()) :
    o.UseVault = true ∧
    (∀ (c : SecretsCollab) (dir app : String) (secrets : List GeneratedSecret),
      (handleSecrets c o dir app secrets).2.1.filesWritten = [] ∧
      (handleSecrets c o dir app secrets).2.1.tempSecretsFiles = [] ∧
      (handleSecrets c o dir app secrets).2.1.dirsCreated = []) := by
  have hv : o.UseVault = true := by
    unfold addAppGuards at hok
    rw [if_pos (by simp [hg])] at hok
    split_ifs at hok
    revert hok
    rename_i h1 h2 h3 h4 h5 h6
    intro hok
    revert h6
    cases o.UseVault <;> simp
  exact ⟨hv, fun c dir app secrets =>
    handleSecrets_vault_no_template c o dir app secrets hv⟩

/-! Concrete fixtures used by the witnesses below. -/

/-- A sample generated secret. -/
def sampleSecret1 : GeneratedSecret := ⟨"db-secret", "password", "s3cr3t"⟩

/-- A second sample generated secret. -/
def sampleSecret2 : GeneratedSecret := ⟨"api-token", "token", "abcd"⟩

/-- An oracle in which every collaborator call succeeds. -/
def okCollab : SecretsCollab :=
  ⟨fun _ => .ok ⟨"acme", "environment-dev"⟩, .ok "myteam", .ok (),
   fun _ _ _ => .ok (), .ok (), .ok (), .ok (), .ok "/tmp/app-secrets.yaml", .ok ()⟩

/-- Options for a GitOps dev environment with the vault configured. -/
def vaultOptions : AddAppOptions :=
  ⟨true, ⟨⟨⟨"https://github.com/acme/environment-dev.git"⟩, ⟨""⟩⟩⟩,
   "", true, "jx", [], [], "", true⟩

/-- Options for a non-GitOps dev environment without a vault. -/
def templateOptions : AddAppOptions :=
  ⟨false, emptyEnvironment, "", true, "jx", [], [], "", false⟩

/-- Witness for C2 at concrete inputs: two secrets through the vault path
give two store writes and no files; one secret through the inline-template
path gives one template file, one values file and no store writes. -/
theorem handleSecrets_routing_witness :
    ((handleSecrets okCollab vaultOptions "chart" "myapp"
        [sampleSecret1, sampleSecret2]).2.1.vaultWrites.length = 2 ∧
      (handleSecrets okCollab vaultOptions "chart" "myapp"
        [sampleSecret1, sampleSecret2]).2.1.filesWritten = []) ∧
    ((handleSecrets okCollab templateOptions "chart" "myapp"
        [sampleSecret1]).2.1.filesWritten.length = 1 ∧
      (handleSecrets okCollab templateOptions "chart" "myapp"
        [sampleSecret1]).2.1.vaultWrites = []) := by
  have h1 := handleSecrets_routing okCollab vaultOptions "chart" "myapp"
    [sampleSecret1, sampleSecret2] (by simp) rfl
  have h2 := handleSecrets_routing okCollab templateOptions "chart" "myapp"
    [sampleSecret1] (by simp) rfl
  exact ⟨⟨(h1.1 rfl).1, (h1.1 rfl).2.1⟩, ⟨(h2.2.1 rfl).1, (h2.2.1 rfl).2.2⟩⟩

/-- Witness for C6 at concrete inputs: the GitOps-scoped path layout. -/
theorem handleSecrets_vault_paths_witness :
    (handleSecrets okCollab vaultOptions "chart" "myapp"
        [sampleSecret1]).2.1.vaultWrites =
      [("gitOps/acme/environment-dev/db-secret", "password", "s3cr3t")] := by
  have h := handleSecrets_vault_paths okCollab vaultOptions "chart" "myapp"
    [sampleSecret1] rfl rfl (by simp)
  exact h.1 ⟨"acme", "environment-dev"⟩ rfl rfl

/-- Witness for C9 at concrete inputs: the guards pass with the vault on, and
no template-path effect occurs. -/
theorem gitopsGuards_require_vault_witness :
    vaultOptions.UseVault = true ∧
    (handleSecrets okCollab vaultOptions "chart" "myapp"
        [sampleSecret1]).2.1.filesWritten = [] := by
  have h := gitopsGuards_require_vault vaultOptions rfl rfl
  exact ⟨h.1, (h.2 okCollab "chart" "myapp" [sampleSecret1]).1⟩
